import Mathlib

/-!
Verification of the RACC rule-visualization core against its source.

The definitions below are a shallow embedding of:
  * `src/frontend/src/utils/severity.js` — `clampSeverity`, `getSeverityMeta`,
    `parseRuleFilters`;
  * `src/frontend/src/components/pages/Analysis.jsx` — `safeRatio`.

The browser DOM is embedded as an explicit element tree (`XmlNode`); the
`DOMParser` front-end is abstracted by `XmlInput`, which distinguishes an
empty input string, a non-well-formed document (one that yields a
`parsererror` element), and a well-formed document with its root element.
`querySelector`/`querySelectorAll` are modelled by document-order
(pre-order) traversal of descendants, exactly as the CSS selectors used by
the source resolve on an XML document.
-/

namespace RACC

/-- An XML element: tag name, attribute list, and child elements in
document order.  (Text nodes are never consulted by the source, so they
are not modelled.) -/
inductive XmlNode where
  | elem (tag : String) (attrs : List (String × String)) (children : List XmlNode)

def XmlNode.tag : XmlNode → String
  | .elem t _ _ => t

def XmlNode.attrs : XmlNode → List (String × String)
  | .elem _ a _ => a

def XmlNode.children : XmlNode → List XmlNode
  | .elem _ _ c => c

/-- `e.getAttribute(name)`: the value of the first attribute with the given
name, or `null` (here `none`) when absent. -/
def getAttribute (e : XmlNode) (name : String) : Option String :=
  (e.attrs.find? (fun p => p.fst == name)).map Prod.snd

mutual

/-- All proper descendants of an element, in document (pre-)order. -/
def descendants : XmlNode → List XmlNode
  | .elem _ _ cs => descendantsList cs

def descendantsList : List XmlNode → List XmlNode
  | [] => []
  | c :: cs => c :: descendants c ++ descendantsList cs

end

/-- All elements of the document whose root element is `root`, in document
order (`document.querySelectorAll` can select the root element itself). -/
def docElements (root : XmlNode) : List XmlNode :=
  root :: descendants root

/-- JavaScript `x || d` for `x : string | null`: `null` and the empty
string are falsy. -/
def jsOr (o : Option String) (d : String) : String :=
  match o with
  | none => d
  | some s => if s == "" then d else s

/-- JavaScript string coercion of `string | null` (template literals and
`String.prototype.includes` render `null` as `"null"`). -/
def jsStr (o : Option String) : String :=
  match o with
  | none => "null"
  | some s => s

/-- `sub` occurs at the start of `l`. -/
def charsLeading : List Char → List Char → Bool
  | [], _ => true
  | _ :: _, [] => false
  | a :: as, b :: bs => a == b && charsLeading as bs

/-- `sub` occurs contiguously somewhere in `l`. -/
def charsInfix (sub : List Char) : List Char → Bool
  | [] => charsLeading sub []
  | c :: rest => charsLeading sub (c :: rest) || charsInfix sub rest

/-- JavaScript `s.includes(sub)`. -/
def jsIncludes (s sub : String) : Bool :=
  charsInfix sub.data s.data

/-- JavaScript `s.toUpperCase()` (per-character uppercasing). -/
def jsToUpperCase (s : String) : String :=
  ⟨s.data.map Char.toUpper⟩

/-- The `details` object stored on filter-component nodes:
`{ filterType, operator, value }`.  `filterType` comes from
`component.getAttribute('type')` and may be `null`. -/
structure FilterDetails where
  filterType : Option String
  operator : String
  value : String
deriving DecidableEq

/-- The `data` object of a graph node: `{ label, type, details? }`. -/
structure NodeData where
  label : String
  type : String
  details : Option FilterDetails := none
deriving DecidableEq

/-- A graph node as produced by `parseRuleFilters` (the constant `style`
object and the constant React-Flow `type: 'default'` are omitted; the
numeric `position` is kept as `posX`/`posY`). -/
structure Node where
  id : String
  posX : Nat
  posY : Nat
  data : NodeData
deriving DecidableEq

/-- A graph edge `{ id, source, target, animated }` (constant `style`
omitted). -/
structure Edge where
  id : String
  source : String
  target : String
  animated : Bool
deriving DecidableEq

/-- The success result `{ nodes, edges }`. -/
structure ParseResult where
  nodes : List Node
  edges : List Edge
deriving DecidableEq

/-- The mutable state of `parseRuleFilters`' main loops:
`nodes`, `edges`, and the counter `nodeId`. -/
structure ParseState where
  nodes : List Node
  edges : List Edge
  nodeId : Nat
deriving DecidableEq

/-- The input as seen after `DOMParser.parseFromString`:
empty source string, a document with a `parsererror`, or a well-formed
document with root element `root`. -/
inductive XmlInput where
  | empty
  | malformed
  | doc (root : XmlNode)

/-- `trigger.getAttribute(...)` defaults and the trigger node label
`` `${triggerName}\nCount: ${count}, Timeout: ${timeout}s` ``. -/
def triggerLabel (index : Nat) (t : XmlNode) : String :=
  let triggerName := jsOr (getAttribute t "name") ("trigger_" ++ toString (index + 1))
  let count := jsOr (getAttribute t "count") "1"
  let timeout := jsOr (getAttribute t "timeout") "60"
  triggerName ++ "\nCount: " ++ count ++ ", Timeout: " ++ timeout ++ "s"

def mkTriggerNode (index nodeId : Nat) (t : XmlNode) : Node :=
  { id := "trigger_" ++ toString nodeId
    posX := 250
    posY := 50 + index * 100
    data := { label := triggerLabel index t, type := "trigger" } }

/-- The `triggers.forEach` loop: one trigger node per `<trigger>` element,
`nodeId` incremented each time. -/
def runTriggers : List XmlNode → Nat → ParseState → ParseState
  | [], _, st => st
  | t :: ts, index, st =>
      runTriggers ts (index + 1)
        { nodes := st.nodes ++ [mkTriggerNode index st.nodeId t]
          edges := st.edges
          nodeId := st.nodeId + 1 }

/-- `matchFilter.querySelectorAll('singleFilterComponent')` member test. -/
def isSingleFilterComponent (e : XmlNode) : Bool :=
  e.tag == "singleFilterComponent"

/-- `component.querySelector('filterData[name="value"]')` (resp.
`"operator"`) member test. -/
def isFilterDataNamed (attr : String) (e : XmlNode) : Bool :=
  e.tag == "filterData" && getAttribute e "name" == some attr

/-- `valueElem?.getAttribute('value') || ''`. -/
def componentValue (c : XmlNode) : String :=
  jsOr (((descendants c).find? (isFilterDataNamed "value")).bind
    (fun e => getAttribute e "value")) ""

/-- `operatorElem?.getAttribute('value') || 'EQUALS'`. -/
def componentOperator (c : XmlNode) : String :=
  jsOr (((descendants c).find? (isFilterDataNamed "operator")).bind
    (fun e => getAttribute e "value")) "EQUALS"

/-- The display label truncates the value:
`` value.length > 20 ? value.substring(0, 20) + '...' : value ``. -/
def displayValue (value : String) : String :=
  if value.length > 20 then value.take 20 ++ "..." else value

def mkComponentNode (ruleIndex filterIndex nodeId : Nat) (c : XmlNode) : Node :=
  let filterType := getAttribute c "type"
  let value := componentValue c
  let operator := componentOperator c
  { id := "component_" ++ toString nodeId
    posX := 500
    posY := 100 + ruleIndex * 200 + filterIndex * 80
    data :=
      { label := jsStr filterType ++ "\n" ++ operator ++ "\n" ++ displayValue value
        type := "filterComponent"
        details := some { filterType := filterType, operator := operator, value := value } } }

/-- The `filterComponents.forEach` loop: a component node plus an edge
filterGroup→component per `<singleFilterComponent>`. -/
def runComponents (ruleIndex : Nat) (filterGroupId : String) :
    List XmlNode → Nat → ParseState → ParseState
  | [], _, st => st
  | c :: cs, filterIndex, st =>
      let n := mkComponentNode ruleIndex filterIndex st.nodeId c
      runComponents ruleIndex filterGroupId cs (filterIndex + 1)
        { nodes := st.nodes ++ [n]
          edges := st.edges ++
            [{ id := "edge_" ++ filterGroupId ++ "_" ++ n.id
               source := filterGroupId
               target := n.id
               animated := false }]
          nodeId := st.nodeId + 1 }

def mkRuleNode (ruleIndex nodeId : Nat) (r : XmlNode) : Node :=
  { id := "rule_" ++ toString nodeId
    posX := 50
    posY := 150 + ruleIndex * 200
    data :=
      { label := jsOr (getAttribute r "name") ("rule_" ++ toString (ruleIndex + 1))
        type := "rule" } }

def mkFilterGroupNode (ruleIndex nodeId : Nat) (mf : XmlNode) : Node :=
  let filterType := jsOr (getAttribute mf "type") "and"
  { id := "filter_" ++ toString nodeId
    posX := 300
    posY := 150 + ruleIndex * 200
    data := { label := jsToUpperCase filterType ++ " Filter", type := "filterGroup" } }

/-- `rule.querySelector('action[type="TRIGGER"]')` member test. -/
def isTriggerAction (e : XmlNode) : Bool :=
  e.tag == "action" && getAttribute e "type" == some "TRIGGER"

/-- The body of the `rules.forEach` callback. -/
def runRule (numTriggers ruleIndex : Nat) (r : XmlNode) (st : ParseState) : ParseState :=
  let ruleNode := mkRuleNode ruleIndex st.nodeId r
  let ruleNodeId := ruleNode.id
  let st1 : ParseState :=
    { nodes := st.nodes ++ [ruleNode], edges := st.edges, nodeId := st.nodeId + 1 }
  match (descendants r).find? (fun e => e.tag == "matchFilter") with
  | none => st1
  | some mf =>
      let fgNode := mkFilterGroupNode ruleIndex st1.nodeId mf
      let filterGroupId := fgNode.id
      let st2 : ParseState :=
        { nodes := st1.nodes ++ [fgNode], edges := st1.edges, nodeId := st1.nodeId + 1 }
      let st3 : ParseState :=
        { st2 with edges := st2.edges ++
            [{ id := "edge_" ++ ruleNodeId ++ "_" ++ filterGroupId
               source := ruleNodeId
               target := filterGroupId
               animated := true }] }
      let components := (descendants mf).filter isSingleFilterComponent
      let st4 := runComponents ruleIndex filterGroupId components 0 st3
      match (descendants r).find? isTriggerAction with
      | none => st4
      | some actionElem =>
          if numTriggers > 0 then
            let triggerAttr := getAttribute actionElem "trigger"
            match st4.nodes.find?
                (fun n => jsIncludes n.data.label (jsStr triggerAttr)
                  && n.data.type == "trigger") with
            | none => st4
            | some triggerNode =>
                { st4 with edges := st4.edges ++
                    [{ id := "edge_" ++ filterGroupId ++ "_" ++ triggerNode.id
                       source := filterGroupId
                       target := triggerNode.id
                       animated := true }] }
          else st4

/-- The `rules.forEach` loop. -/
def runRules (numTriggers : Nat) : List XmlNode → Nat → ParseState → ParseState
  | [], _, st => st
  | r :: rs, index, st => runRules numTriggers rs (index + 1) (runRule numTriggers index r st)

/-- `xmlDoc.querySelectorAll('trigger')`. -/
def selectTriggers (root : XmlNode) : List XmlNode :=
  (docElements root).filter (fun e => e.tag == "trigger")

/-- `xmlDoc.querySelectorAll('rule[name]:not([name="Root Rule"])')`:
`<rule>` elements that carry a `name` attribute whose value is not the
literal `"Root Rule"`. -/
def isSelectedRule (e : XmlNode) : Bool :=
  e.tag == "rule" &&
    match getAttribute e "name" with
    | some v => v != "Root Rule"
    | none => false

def selectRules (root : XmlNode) : List XmlNode :=
  (docElements root).filter isSelectedRule

/-- `parseRuleFilters(xmlContent)`: `null` (= `none`) for empty input, for
a document with a `parsererror`, and when `querySelector('ruleset')` finds
no `<ruleset>` element; otherwise the accumulated `{nodes, edges}`. -/
def parseRuleFilters (input : XmlInput) : Option ParseResult :=
  match input with
  | .empty => none
  | .malformed => none
  | .doc root =>
      if (docElements root).any (fun e => e.tag == "ruleset") then
        let triggers := selectTriggers root
        let st0 := runTriggers triggers 0 { nodes := [], edges := [], nodeId := 0 }
        let st1 := runRules triggers.length (selectRules root) 0 st0
        some { nodes := st1.nodes, edges := st1.edges }
      else none

/-! ### `clampSeverity` / `getSeverityMeta` (severity.js lines 1–45)

`Number.parseInt(input, 10)` is embedded faithfully over strings: leading
JavaScript whitespace is skipped, an optional sign is consumed, and the
longest prefix of decimal digits is converted; if there is no digit the
result is `NaN` (here `none`). -/

def jsWhitespace (c : Char) : Bool :=
  c == ' ' || c == '\t' || c == '\n' || c == '\r' || c == '\x0b' || c == '\x0c'

def digitsToNat (ds : List Char) : Nat :=
  ds.foldl (fun a c => a * 10 + (c.toNat - 48)) 0

def parseDecDigits (cs : List Char) : Option Nat :=
  let ds := cs.takeWhile Char.isDigit
  if ds.isEmpty then none else some (digitsToNat ds)

/-- `Number.parseInt(s, 10)`, with `NaN` as `none`. -/
def parseIntDec (s : String) : Option Int :=
  match s.data.dropWhile jsWhitespace with
  | '-' :: rest => (parseDecDigits rest).map (fun n => -(n : Int))
  | '+' :: rest => (parseDecDigits rest).map (fun n => (n : Int))
  | cs => (parseDecDigits cs).map (fun n => (n : Int))

def clampSeverity (input : String) : Int :=
  match parseIntDec input with
  | none => 0
  | some numeric => min 100 (max 0 numeric)

structure SeverityMeta where
  variant : String
  label : String
  barClass : String
  value : Int
deriving DecidableEq

def getSeverityMeta (input : String) : SeverityMeta :=
  let severity := clampSeverity input
  if severity ≥ 80 then
    { variant := "destructive", label := "Critical", barClass := "bg-red-500", value := severity }
  else if severity ≥ 60 then
    { variant := "warning", label := "High", barClass := "bg-orange-500", value := severity }
  else if severity ≥ 40 then
    { variant := "default", label := "Medium", barClass := "bg-yellow-500", value := severity }
  else
    { variant := "secondary", label := "Low", barClass := "bg-green-500", value := severity }

/-! ### `safeRatio` (Analysis.jsx)

`(part, total)` are JavaScript numbers used for percentages; the
arithmetic is embedded over `ℚ`.  The guard `!total || total <= 0`
collapses to `total ≤ 0` over `ℚ` (`!total` catches `0`, the comparison
catches negatives). -/

def safeRatio (part total : ℚ) : ℚ :=
  if total ≤ 0 then 0 else part / total * 100

/-! ### Auxiliary definitions for the proofs -/

/-- Decimal digit list of a natural number (most significant first); proved
below to agree with the `Nat.toDigits`-based `Nat.repr`. -/
def decDigits (n : Nat) : List Char :=
  if _ : n < 10 then [Nat.digitChar n]
  else decDigits (n / 10) ++ [Nat.digitChar (n % 10)]
  termination_by n
  decreasing_by exact Nat.div_lt_self (by omega) (by omega)

/-- The four id naming schemes used by `parseRuleFilters`. -/
def idStemList : List String :=
  ["trigger_", "rule_", "filter_", "component_"]

/-- Closed form of the trigger loop's node output. -/
def triggerNodesFrom (index nodeId : Nat) : List XmlNode → List Node
  | [] => []
  | t :: ts => mkTriggerNode index nodeId t :: triggerNodesFrom (index + 1) (nodeId + 1) ts

/-- Closed form of the component loop's node output. -/
def componentNodesFrom (ruleIndex filterIndex nodeId : Nat) : List XmlNode → List Node
  | [] => []
  | c :: cs =>
      mkComponentNode ruleIndex filterIndex nodeId c ::
        componentNodesFrom ruleIndex (filterIndex + 1) (nodeId + 1) cs

/-- The filterGroup→component edge for the component created at `nodeId`. -/
def componentEdge (filterGroupId : String) (nodeId : Nat) : Edge :=
  { id := "edge_" ++ filterGroupId ++ "_" ++ ("component_" ++ toString nodeId)
    source := filterGroupId
    target := "component_" ++ toString nodeId
    animated := false }

/-- Closed form of the component loop's edge output. -/
def componentEdgesFrom (filterGroupId : String) (nodeId : Nat) : List XmlNode → List Edge
  | [] => []
  | _ :: cs => componentEdge filterGroupId nodeId :: componentEdgesFrom filterGroupId (nodeId + 1) cs

/-- The rule→filterGroup edge. -/
def ruleEdge (ruleNodeId filterGroupId : String) : Edge :=
  { id := "edge_" ++ ruleNodeId ++ "_" ++ filterGroupId
    source := ruleNodeId
    target := filterGroupId
    animated := true }

/-- The (zero or one) filterGroup→trigger edges contributed by an
`action[type="TRIGGER"]` lookup over the accumulated node list. -/
def actionEdges (numTriggers : Nat) (r : XmlNode) (filterGroupId : String)
    (allNodes : List Node) : List Edge :=
  match (descendants r).find? isTriggerAction with
  | none => []
  | some actionElem =>
      if numTriggers > 0 then
        match allNodes.find?
            (fun n => jsIncludes n.data.label (jsStr (getAttribute actionElem "trigger"))
              && n.data.type == "trigger") with
        | none => []
        | some triggerNode =>
            [{ id := "edge_" ++ filterGroupId ++ "_" ++ triggerNode.id
               source := filterGroupId
               target := triggerNode.id
               animated := true }]
      else []

/-- Number of nodes of a given `data.type` in a node list. -/
def countType (ty : String) (ns : List Node) : Nat :=
  (ns.filter (fun n => n.data.type == ty)).length

/-- A `singleFilterComponent` with a 25-character value (for the
truncation/full-storage property). -/
def longValueComponent : XmlNode :=
  .elem "singleFilterComponent" [("type", "CommandLine")]
    [.elem "filterData" [("name", "value"), ("value", "ABCDEFGHIJKLMNOPQRSTUVWXY")] [],
     .elem "filterData" [("name", "operator"), ("value", "CONTAINS")] []]

def longValueMatchFilter : XmlNode :=
  .elem "matchFilter" [("type", "or")] [longValueComponent]

def longValueRule : XmlNode :=
  .elem "rule" [("name", "R1")] [longValueMatchFilter]

def longValueDoc : XmlNode :=
  .elem "ruleset" [] [longValueRule]

/-- Two triggers whose names overlap as substrings: `"foobar"` first, the
exactly-referenced `"foo"` second. -/
def shadowRule : XmlNode :=
  .elem "rule" [("name", "r1")]
    [.elem "matchFilter" [("type", "and")] [],
     .elem "action" [("type", "TRIGGER"), ("trigger", "foo")] []]

def shadowDoc : XmlNode :=
  .elem "ruleset" []
    [.elem "trigger" [("name", "foobar")] [],
     .elem "trigger" [("name", "foo")] [],
     shadowRule]

/-- A single trigger `"T1"` exactly referenced by the rule's action. -/
def okTriggerRule : XmlNode :=
  .elem "rule" [("name", "R")]
    [.elem "matchFilter" [] [],
     .elem "action" [("type", "TRIGGER"), ("trigger", "T1")] []]

def okTriggerDoc : XmlNode :=
  .elem "ruleset" [] [.elem "trigger" [("name", "T1")] [], okTriggerRule]

/-- Well-formedness invariant of the loop state: every node id is one of
the four stems followed by a number below the counter, node ids are
pairwise distinct, and every edge endpoint is an existing node id. -/
def WfState (st : ParseState) : Prop :=
  (∀ n ∈ st.nodes, ∃ p k, p ∈ idStemList ∧ n.id = p ++ toString k ∧ k < st.nodeId) ∧
  (st.nodes.map Node.id).Nodup ∧
  (∀ e ∈ st.edges,
    (∃ n ∈ st.nodes, n.id = e.source) ∧ (∃ n ∈ st.nodes, n.id = e.target))

/-! ## Theorems

### Decimal rendering of `Nat` is injective

`parseRuleFilters` builds node ids by string interpolation of the running
counter; distinctness of ids therefore rests on injectivity of the decimal
rendering used by `toString`. -/

theorem toDigitsCore_eq_decDigits :
    ∀ (fuel n : Nat) (acc : List Char), n < fuel →
      Nat.toDigitsCore 10 fuel n acc = decDigits n ++ acc := by
  intro fuel
  induction fuel with
  | zero => intro n acc h; omega
  | succ f ih =>
      intro n acc h
      by_cases h10 : n / 10 = 0
      · have hn : n < 10 := by omega
        rw [decDigits]
        simp [Nat.toDigitsCore, h10, hn, Nat.mod_eq_of_lt hn]
      · have hn : ¬ n < 10 := by omega
        rw [decDigits]
        simp only [Nat.toDigitsCore, h10, if_false, hn, dite_false]
        rw [ih (n / 10) _ (by omega)]
        simp

theorem digitChar_sub48 (n : Nat) (h : n < 10) : (Nat.digitChar n).toNat - 48 = n := by
  interval_cases n <;> rfl

theorem foldl_decDigits (n : Nat) : ∀ a : Nat,
    List.foldl (fun a c => a * 10 + (c.toNat - 48)) a (decDigits n)
      = a * 10 ^ (decDigits n).length + n := by
  induction n using Nat.strong_induction_on with
  | _ n ih =>
    intro a
    by_cases h : n < 10
    · rw [decDigits]
      simp [h, digitChar_sub48 n h]
    · rw [decDigits]
      simp only [h, dite_false]
      rw [List.foldl_append]
      rw [ih (n / 10) (Nat.div_lt_self (by omega) (by omega)) a]
      simp only [List.foldl_cons, List.foldl_nil,
        digitChar_sub48 (n % 10) (Nat.mod_lt _ (by omega)),
        List.length_append, List.length_singleton]
      rw [pow_succ, ← mul_assoc]
      generalize a * 10 ^ (decDigits (n / 10)).length = B
      omega

theorem decDigits_inj {m n : Nat} (h : decDigits m = decDigits n) : m = n := by
  have hm := foldl_decDigits m 0
  rw [h, foldl_decDigits n 0] at hm
  have h2 : n = m := by simpa using hm
  omega

theorem natRepr_inj {m n : Nat} (h : Nat.repr m = Nat.repr n) : m = n := by
  unfold Nat.repr Nat.toDigits at h
  rw [toDigitsCore_eq_decDigits (m + 1) m [] (by omega),
      toDigitsCore_eq_decDigits (n + 1) n [] (by omega)] at h
  simp only [List.append_nil, List.asString] at h
  exact decDigits_inj (by injection h)

theorem natToString_inj {m n : Nat} (h : toString m = toString n) : m = n :=
  natRepr_inj h

/-! ### Discriminating the id stems -/

theorem str_append_cancel {p a b : String} (h : p ++ a = p ++ b) : a = b := by
  have hd := congrArg String.data h
  simp only [String.data_append] at hd
  exact String.ext (List.append_cancel_left hd)

theorem append_head {p a : String} {c : Char} (hp : p.data.head? = some c) :
    (p ++ a).data.head? = some c := by
  rw [String.data_append, List.head?_append, hp]
  rfl

theorem stems_append_ne {p q a b : String} {cp cq : Char}
    (hp : p.data.head? = some cp) (hq : q.data.head? = some cq) (hne : cp ≠ cq) :
    p ++ a ≠ q ++ b := by
  intro e
  have h₁ : (p ++ a).data.head? = some cp := append_head hp
  rw [e, append_head hq] at h₁
  simp only [Option.some.injEq] at h₁
  exact hne h₁.symm

theorem idStem_key_inj :
    ∀ p₁ ∈ idStemList, ∀ p₂ ∈ idStemList, ∀ k₁ k₂ : Nat,
      p₁ ++ toString k₁ = p₂ ++ toString k₂ → p₁ = p₂ ∧ k₁ = k₂ := by
  intro p₁ h₁ p₂ h₂ k₁ k₂ h
  simp only [idStemList, List.mem_cons, List.not_mem_nil, or_false] at h₁ h₂
  rcases h₁ with h₁ | h₁ | h₁ | h₁ <;> rcases h₂ with h₂ | h₂ | h₂ | h₂ <;>
    subst h₁ <;> subst h₂ <;>
    first
      | exact ⟨rfl, natToString_inj (str_append_cancel h)⟩
      | exact absurd h (stems_append_ne rfl rfl (by decide))

/-! ### Closed forms of the three loops -/

theorem runTriggers_eq : ∀ (ts : List XmlNode) (index : Nat) (st : ParseState),
    runTriggers ts index st =
      { nodes := st.nodes ++ triggerNodesFrom index st.nodeId ts
        edges := st.edges
        nodeId := st.nodeId + ts.length } := by
  intro ts
  induction ts with
  | nil => intro index st; simp [runTriggers, triggerNodesFrom]
  | cons t ts ih =>
      intro index st
      rw [runTriggers, ih]
      simp [triggerNodesFrom, List.append_assoc]
      omega

theorem runComponents_eq : ∀ (cs : List XmlNode) (ruleIndex : Nat) (filterGroupId : String)
    (filterIndex : Nat) (st : ParseState),
    runComponents ruleIndex filterGroupId cs filterIndex st =
      { nodes := st.nodes ++ componentNodesFrom ruleIndex filterIndex st.nodeId cs
        edges := st.edges ++ componentEdgesFrom filterGroupId st.nodeId cs
        nodeId := st.nodeId + cs.length } := by
  intro cs
  induction cs with
  | nil => intro ri fg fi st; simp [runComponents, componentNodesFrom, componentEdgesFrom]
  | cons c cs ih =>
      intro ri fg fi st
      rw [runComponents, ih]
      simp [componentNodesFrom, componentEdgesFrom, componentEdge, mkComponentNode,
        List.append_assoc]
      omega

theorem runRule_eq_no_mf {r : XmlNode}
    (h : (descendants r).find? (fun e => e.tag == "matchFilter") = none)
    (numTriggers ruleIndex : Nat) (st : ParseState) :
    runRule numTriggers ruleIndex r st =
      { nodes := st.nodes ++ [mkRuleNode ruleIndex st.nodeId r]
        edges := st.edges
        nodeId := st.nodeId + 1 } := by
  simp only [runRule, h]

theorem runRule_eq_mf {r mf : XmlNode}
    (h : (descendants r).find? (fun e => e.tag == "matchFilter") = some mf)
    (numTriggers ruleIndex : Nat) (st : ParseState) :
    runRule numTriggers ruleIndex r st =
      { nodes := st.nodes ++ [mkRuleNode ruleIndex st.nodeId r]
          ++ [mkFilterGroupNode ruleIndex (st.nodeId + 1) mf]
          ++ componentNodesFrom ruleIndex 0 (st.nodeId + 2)
              ((descendants mf).filter isSingleFilterComponent)
        edges := st.edges
          ++ [ruleEdge (mkRuleNode ruleIndex st.nodeId r).id
                (mkFilterGroupNode ruleIndex (st.nodeId + 1) mf).id]
          ++ componentEdgesFrom (mkFilterGroupNode ruleIndex (st.nodeId + 1) mf).id
              (st.nodeId + 2) ((descendants mf).filter isSingleFilterComponent)
          ++ actionEdges numTriggers r (mkFilterGroupNode ruleIndex (st.nodeId + 1) mf).id
              (st.nodes ++ [mkRuleNode ruleIndex st.nodeId r]
                ++ [mkFilterGroupNode ruleIndex (st.nodeId + 1) mf]
                ++ componentNodesFrom ruleIndex 0 (st.nodeId + 2)
                    ((descendants mf).filter isSingleFilterComponent))
        nodeId := st.nodeId + 2
          + ((descendants mf).filter isSingleFilterComponent).length } := by
  simp only [runRule, h]
  rw [runComponents_eq]
  simp only [actionEdges]
  cases hA : (descendants r).find? isTriggerAction with
  | none =>
      simp [ruleEdge, List.append_assoc]
      try omega
  | some actionElem =>
      by_cases hT : numTriggers > 0
      · simp only [hT, if_true]
        cases hF : (st.nodes ++ [mkRuleNode ruleIndex st.nodeId r]
            ++ [mkFilterGroupNode ruleIndex (st.nodeId + 1) mf]
            ++ componentNodesFrom ruleIndex 0 (st.nodeId + 2)
                ((descendants mf).filter isSingleFilterComponent)).find?
            (fun n => jsIncludes n.data.label (jsStr (getAttribute actionElem "trigger"))
              && n.data.type == "trigger") with
        | none =>
            simp [ruleEdge, List.append_assoc]
            try omega
        | some triggerNode =>
            simp [ruleEdge, List.append_assoc]
            try omega
      · simp only [hT, if_false]
        simp [ruleEdge, List.append_assoc]
        try omega

/-! ### Preservation of the well-formedness invariant -/

theorem wf_push_node {st : ParseState} (hw : WfState st) (p : String) (hp : p ∈ idStemList)
    {n : Node} (hid : n.id = p ++ toString st.nodeId) :
    WfState { nodes := st.nodes ++ [n], edges := st.edges, nodeId := st.nodeId + 1 } := by
  obtain ⟨hids, hnd, hed⟩ := hw
  refine ⟨?_, ?_, ?_⟩
  · intro m hm
    rcases List.mem_append.1 hm with hm | hm
    · obtain ⟨q, k, hq, hk, hlt⟩ := hids m hm
      exact ⟨q, k, hq, hk, show k < st.nodeId + 1 by omega⟩
    · have hmn : m = n := by simpa using hm
      subst hmn
      exact ⟨p, st.nodeId, hp, hid, show st.nodeId < st.nodeId + 1 by omega⟩
  · rw [List.map_append]
    refine List.Nodup.append hnd (by simp) ?_
    intro a ha hb
    simp only [List.map_cons, List.map_nil, List.mem_singleton] at hb
    obtain ⟨m, hm, hmid⟩ := List.mem_map.1 ha
    obtain ⟨q, k, hq, hk, hlt⟩ := hids m hm
    have h2 : q ++ toString k = p ++ toString st.nodeId := by
      rw [← hk, hmid, hb, hid]
    obtain ⟨-, hkk⟩ := idStem_key_inj q hq p hp k st.nodeId h2
    omega
  · intro e he
    obtain ⟨⟨n₁, hn₁, h₁⟩, ⟨n₂, hn₂, h₂⟩⟩ := hed e he
    exact ⟨⟨n₁, List.mem_append_left _ hn₁, h₁⟩, ⟨n₂, List.mem_append_left _ hn₂, h₂⟩⟩

theorem wf_push_edge {st : ParseState} (hw : WfState st) {e : Edge}
    (hs : ∃ n ∈ st.nodes, n.id = e.source) (ht : ∃ n ∈ st.nodes, n.id = e.target) :
    WfState { st with edges := st.edges ++ [e] } := by
  obtain ⟨hids, hnd, hed⟩ := hw
  refine ⟨hids, hnd, ?_⟩
  intro e' he'
  rcases List.mem_append.1 he' with he' | he'
  · exact hed e' he'
  · have hee : e' = e := by simpa using he'
    subst hee
    exact ⟨hs, ht⟩

theorem wf_runTriggers : ∀ (ts : List XmlNode) (index : Nat) (st : ParseState),
    WfState st → WfState (runTriggers ts index st) := by
  intro ts
  induction ts with
  | nil => intro i st hw; simpa [runTriggers] using hw
  | cons t ts ih =>
      intro i st hw
      rw [runTriggers]
      exact ih _ _ (wf_push_node hw "trigger_" (by simp [idStemList]) rfl)

theorem wf_runComponents : ∀ (cs : List XmlNode) (ruleIndex : Nat) (filterGroupId : String)
    (filterIndex : Nat) (st : ParseState),
    WfState st → (∃ n ∈ st.nodes, n.id = filterGroupId) →
    WfState (runComponents ruleIndex filterGroupId cs filterIndex st) := by
  intro cs
  induction cs with
  | nil => intro ri fg fi st hw _; simpa [runComponents] using hw
  | cons c cs ih =>
      intro ri fg fi st hw hfg
      rw [runComponents]
      refine ih ri fg (fi + 1) _ ?_ ?_
      · refine wf_push_edge (wf_push_node hw "component_" (by simp [idStemList]) rfl) ?_ ?_
        · obtain ⟨m, hm, hmid⟩ := hfg
          exact ⟨m, List.mem_append_left _ hm, hmid⟩
        · exact ⟨mkComponentNode ri fi st.nodeId c, by simp, rfl⟩
      · obtain ⟨m, hm, hmid⟩ := hfg
        exact ⟨m, List.mem_append_left _ hm, hmid⟩

theorem wf_runRule (numTriggers ruleIndex : Nat) (r : XmlNode) (st : ParseState)
    (hw : WfState st) : WfState (runRule numTriggers ruleIndex r st) := by
  cases hmf : (descendants r).find? (fun e => e.tag == "matchFilter") with
  | none =>
      rw [runRule_eq_no_mf hmf]
      exact wf_push_node hw "rule_" (by simp [idStemList]) rfl
  | some mf =>
      have hw1 : WfState
          { nodes := st.nodes ++ [mkRuleNode ruleIndex st.nodeId r]
            edges := st.edges
            nodeId := st.nodeId + 1 } :=
        wf_push_node hw "rule_" (by simp [idStemList]) rfl
      have hw2 : WfState
          { nodes := (st.nodes ++ [mkRuleNode ruleIndex st.nodeId r]
              ++ [mkFilterGroupNode ruleIndex (st.nodeId + 1) mf])
            edges := st.edges
            nodeId := st.nodeId + 2 } :=
        wf_push_node hw1 "filter_" (by simp [idStemList]) rfl
      have hw3 : WfState
          { nodes := (st.nodes ++ [mkRuleNode ruleIndex st.nodeId r]
              ++ [mkFilterGroupNode ruleIndex (st.nodeId + 1) mf])
            edges := (st.edges ++ [ruleEdge (mkRuleNode ruleIndex st.nodeId r).id
              (mkFilterGroupNode ruleIndex (st.nodeId + 1) mf).id])
            nodeId := st.nodeId + 2 } := by
        refine wf_push_edge hw2 ?_ ?_
        · exact ⟨mkRuleNode ruleIndex st.nodeId r, by simp, rfl⟩
        · exact ⟨mkFilterGroupNode ruleIndex (st.nodeId + 1) mf, by simp, rfl⟩
      have hw4 := wf_runComponents ((descendants mf).filter isSingleFilterComponent)
        ruleIndex (mkFilterGroupNode ruleIndex (st.nodeId + 1) mf).id 0 _ hw3
        ⟨mkFilterGroupNode ruleIndex (st.nodeId + 1) mf, by simp, rfl⟩
      rw [runComponents_eq] at hw4
      rw [runRule_eq_mf hmf]
      simp only [actionEdges]
      cases hA : (descendants r).find? isTriggerAction with
      | none => simpa [List.append_assoc] using hw4
      | some actionElem =>
          by_cases hT : numTriggers > 0
          · simp only [hT, if_true]
            cases hF : (st.nodes ++ [mkRuleNode ruleIndex st.nodeId r]
                ++ [mkFilterGroupNode ruleIndex (st.nodeId + 1) mf]
                ++ componentNodesFrom ruleIndex 0 (st.nodeId + 2)
                    ((descendants mf).filter isSingleFilterComponent)).find?
                (fun n => jsIncludes n.data.label (jsStr (getAttribute actionElem "trigger"))
                  && n.data.type == "trigger") with
            | none => simpa [List.append_assoc] using hw4
            | some triggerNode =>
                have hw4p : WfState
                    { nodes := (st.nodes ++ [mkRuleNode ruleIndex st.nodeId r]
                        ++ [mkFilterGroupNode ruleIndex (st.nodeId + 1) mf]
                        ++ componentNodesFrom ruleIndex 0 (st.nodeId + 2)
                            ((descendants mf).filter isSingleFilterComponent))
                      edges := (st.edges ++ [ruleEdge (mkRuleNode ruleIndex st.nodeId r).id
                          (mkFilterGroupNode ruleIndex (st.nodeId + 1) mf).id]
                        ++ componentEdgesFrom (mkFilterGroupNode ruleIndex (st.nodeId + 1) mf).id
                            (st.nodeId + 2) ((descendants mf).filter isSingleFilterComponent))
                      nodeId := (st.nodeId + 2
                        + ((descendants mf).filter isSingleFilterComponent).length) } := by
                  simpa [List.append_assoc] using hw4
                have hpush := wf_push_edge hw4p
                  (e := { id := ("edge_" ++ (mkFilterGroupNode ruleIndex (st.nodeId + 1) mf).id
                            ++ "_" ++ triggerNode.id)
                          source := (mkFilterGroupNode ruleIndex (st.nodeId + 1) mf).id
                          target := triggerNode.id
                          animated := true })
                  ⟨mkFilterGroupNode ruleIndex (st.nodeId + 1) mf, by simp, rfl⟩
                  ⟨triggerNode, List.mem_of_find?_eq_some hF, rfl⟩
                simpa [List.append_assoc] using hpush
          · simp only [hT, if_false]
            simpa [List.append_assoc] using hw4


theorem wf_runRules : ∀ (rs : List XmlNode) (numTriggers index : Nat) (st : ParseState),
    WfState st → WfState (runRules numTriggers rs index st) := by
  intro rs
  induction rs with
  | nil => intro T i st hw; simpa [runRules] using hw
  | cons r rs ih =>
      intro T i st hw
      rw [runRules]
      exact ih T (i + 1) _ (wf_runRule T i r st hw)

theorem wf_initial : WfState { nodes := [], edges := [], nodeId := 0 } :=
  ⟨by simp, by simp, by simp⟩

/-- Shape of every successful parse: the output is the state left by the
trigger loop followed by the rule loop. -/
theorem parseRuleFilters_doc_eq (root : XmlNode)
    (h : (docElements root).any (fun e => e.tag == "ruleset") = true) :
    parseRuleFilters (.doc root) =
      some { nodes := (runRules (selectTriggers root).length (selectRules root) 0
                (runTriggers (selectTriggers root) 0
                  { nodes := [], edges := [], nodeId := 0 })).nodes
             edges := (runRules (selectTriggers root).length (selectRules root) 0
                (runTriggers (selectTriggers root) 0
                  { nodes := [], edges := [], nodeId := 0 })).edges } := by
  simp only [parseRuleFilters, h, if_true]

/-- **C9.** Graph well-formedness invariant: whenever `parseRuleFilters`
returns a non-null result, every edge's source id and target id equal the
id of some node of the returned `nodes` array, and the node ids are
pairwise distinct. -/
theorem parse_graph_invariant (input : XmlInput) (res : ParseResult)
    (h : parseRuleFilters input = some res) :
    (res.nodes.map Node.id).Nodup ∧
      ∀ e ∈ res.edges,
        (∃ n ∈ res.nodes, n.id = e.source) ∧ (∃ n ∈ res.nodes, n.id = e.target) := by
  cases input with
  | empty => simp [parseRuleFilters] at h
  | malformed => simp [parseRuleFilters] at h
  | doc root =>
      cases hrs : (docElements root).any (fun e => e.tag == "ruleset") with
      | false => simp [parseRuleFilters, hrs] at h
      | true =>
          rw [parseRuleFilters_doc_eq root hrs] at h
          injection h with h2
          subst h2
          have hw := wf_runRules (selectRules root) (selectTriggers root).length 0 _
            (wf_runTriggers (selectTriggers root) 0 _ wf_initial)
          exact ⟨hw.2.1, hw.2.2⟩

/-! ### Counting nodes by type -/

theorem countType_append (ty : String) (a b : List Node) :
    countType ty (a ++ b) = countType ty a + countType ty b := by
  simp [countType, List.filter_append]

theorem countType_triggerNodesFrom (ty : String) :
    ∀ (ts : List XmlNode) (index nodeId : Nat),
      countType ty (triggerNodesFrom index nodeId ts) =
        if ("trigger" == ty) then ts.length else 0 := by
  intro ts
  induction ts with
  | nil => intro i k; simp [triggerNodesFrom, countType]
  | cons t ts ih =>
      intro i k
      simp only [triggerNodesFrom, countType, List.filter_cons]
      by_cases h : ("trigger" == ty) = true
      · simp only [mkTriggerNode, h, if_true]
        have := ih (i + 1) (k + 1)
        simp only [countType, h, if_true] at this
        simp [this]
      · have hb : ("trigger" == ty) = false := by
          cases hx : ("trigger" == ty) <;> simp_all
        have := ih (i + 1) (k + 1)
        simp only [countType, hb] at this
        simp [mkTriggerNode, hb, this]

theorem countType_componentNodesFrom (ty : String) :
    ∀ (cs : List XmlNode) (ruleIndex filterIndex nodeId : Nat),
      countType ty (componentNodesFrom ruleIndex filterIndex nodeId cs) =
        if ("filterComponent" == ty) then cs.length else 0 := by
  intro cs
  induction cs with
  | nil => intro ri fi k; simp [componentNodesFrom, countType]
  | cons c cs ih =>
      intro ri fi k
      simp only [componentNodesFrom, countType, List.filter_cons]
      by_cases h : ("filterComponent" == ty) = true
      · simp only [mkComponentNode, h, if_true]
        have := ih ri (fi + 1) (k + 1)
        simp only [countType, h, if_true] at this
        simp [this]
      · have hb : ("filterComponent" == ty) = false := by
          cases hx : ("filterComponent" == ty) <;> simp_all
        have := ih ri (fi + 1) (k + 1)
        simp only [countType, hb] at this
        simp [mkComponentNode, hb, this]

theorem componentNodesFrom_type : ∀ (cs : List XmlNode) (ri fi k : Nat) (n : Node),
    n ∈ componentNodesFrom ri fi k cs → n.data.type = "filterComponent" := by
  intro cs
  induction cs with
  | nil => intro ri fi k n h; simp [componentNodesFrom] at h
  | cons c cs ih =>
      intro ri fi k n h
      simp only [componentNodesFrom, List.mem_cons] at h
      rcases h with h | h
      · subst h; rfl
      · exact ih ri (fi + 1) (k + 1) n h

theorem triggerNodesFrom_type : ∀ (ts : List XmlNode) (i k : Nat) (n : Node),
    n ∈ triggerNodesFrom i k ts → n.data.type = "trigger" := by
  intro ts
  induction ts with
  | nil => intro i k n h; simp [triggerNodesFrom] at h
  | cons t ts ih =>
      intro i k n h
      simp only [triggerNodesFrom, List.mem_cons] at h
      rcases h with h | h
      · subst h; rfl
      · exact ih (i + 1) (k + 1) n h

theorem countType_rule_runRule (T i : Nat) (r : XmlNode) (st : ParseState) :
    countType "rule" (runRule T i r st).nodes = countType "rule" st.nodes + 1 := by
  cases hmf : (descendants r).find? (fun e => e.tag == "matchFilter") with
  | none =>
      rw [runRule_eq_no_mf hmf]
      simp [countType_append, countType, mkRuleNode]
  | some mf =>
      rw [runRule_eq_mf hmf]
      simp [countType_append, countType_componentNodesFrom, countType, mkRuleNode,
        mkFilterGroupNode]
      intro a ha
      simp [componentNodesFrom_type _ _ _ _ _ ha]

theorem countType_trigger_runRule (T i : Nat) (r : XmlNode) (st : ParseState) :
    countType "trigger" (runRule T i r st).nodes = countType "trigger" st.nodes := by
  cases hmf : (descendants r).find? (fun e => e.tag == "matchFilter") with
  | none =>
      rw [runRule_eq_no_mf hmf]
      simp [countType_append, countType, mkRuleNode]
  | some mf =>
      rw [runRule_eq_mf hmf]
      simp [countType_append, countType_componentNodesFrom, countType, mkRuleNode,
        mkFilterGroupNode]
      intro a ha
      simp [componentNodesFrom_type _ _ _ _ _ ha]

theorem countType_rule_runRules : ∀ (rs : List XmlNode) (T i : Nat) (st : ParseState),
    countType "rule" (runRules T rs i st).nodes = countType "rule" st.nodes + rs.length := by
  intro rs
  induction rs with
  | nil => intro T i st; simp [runRules]
  | cons r rs ih =>
      intro T i st
      rw [runRules, ih, countType_rule_runRule]
      simp
      omega

theorem countType_trigger_runRules : ∀ (rs : List XmlNode) (T i : Nat) (st : ParseState),
    countType "trigger" (runRules T rs i st).nodes = countType "trigger" st.nodes := by
  intro rs
  induction rs with
  | nil => intro T i st; simp [runRules]
  | cons r rs ih =>
      intro T i st
      rw [runRules, ih, countType_trigger_runRule]

/-- `runRules` over a single rule is one pass of the rule body. -/
theorem runRules_singleton (T i : Nat) (r : XmlNode) (st : ParseState) :
    runRules T [r] i st = runRule T i r st := by
  simp [runRules]

/-- Witness for C9 at the concrete input `<ruleset/>`. -/
theorem parse_graph_invariant_witness :
    ((ParseResult.mk [] []).nodes.map Node.id).Nodup ∧
      ∀ e ∈ (ParseResult.mk [] []).edges,
        (∃ n ∈ (ParseResult.mk [] []).nodes, n.id = e.source) ∧
          (∃ n ∈ (ParseResult.mk [] []).nodes, n.id = e.target) :=
  parse_graph_invariant (.doc (.elem "ruleset" [] [])) (ParseResult.mk [] []) rfl

/-- **C3 (counterexample).** The claimed equivalence "a `<rule>` element
produces a rule node iff its `name` attribute does not equal `Root Rule`"
fails for a `<rule>` with no `name` attribute at all: its (absent) name is
not `"Root Rule"`, yet `<ruleset><rule/></ruleset>` parses to zero nodes,
because the selector `rule[name]:not([name="Root Rule"])` requires the
attribute to be present. -/
theorem rule_node_missing_name_cex :
    parseRuleFilters (.doc (.elem "ruleset" [] [.elem "rule" [] []])) =
        some { nodes := [], edges := [] } ∧
      (XmlNode.elem "rule" [] []) ∈ docElements (.elem "ruleset" [] [.elem "rule" [] []]) ∧
      getAttribute (.elem "rule" [] []) "name" ≠ some "Root Rule" := by
  refine ⟨rfl, ?_, by decide⟩
  have h : docElements (.elem "ruleset" [] [.elem "rule" [] []]) =
      [.elem "ruleset" [] [.elem "rule" [] []], .elem "rule" [] []] := rfl
  rw [h]
  exact List.mem_cons_of_mem _ (List.mem_cons_self _ _)

/-- **C3 (amended).** A `<rule>` element is turned into a rule node iff it
carries a `name` attribute whose value is not the literal `"Root Rule"`;
the number of rule nodes equals the number of such elements, and a
document whose rules are all named `"Root Rule"` (or carry no name)
yields zero rule nodes with no error. -/
theorem rule_nodes_iff_named_non_root (root : XmlNode)
    (hrs : (docElements root).any (fun e => e.tag == "ruleset") = true) :
    ∃ res, parseRuleFilters (.doc root) = some res ∧
      countType "rule" res.nodes = (selectRules root).length ∧
      ∀ e ∈ docElements root,
        (isSelectedRule e = true ↔
          e.tag = "rule" ∧ ∃ v, getAttribute e "name" = some v ∧ v ≠ "Root Rule") := by
  refine ⟨_, parseRuleFilters_doc_eq root hrs, ?_, ?_⟩
  · rw [countType_rule_runRules, runTriggers_eq]
    simp [countType]
    intro a ha
    simp [triggerNodesFrom_type _ _ _ _ ha]
  · intro e _
    simp only [isSelectedRule, Bool.and_eq_true, beq_iff_eq]
    cases hA : getAttribute e "name" with
    | none => simp
    | some v => simp [bne_iff_ne]

/-- Witness for the amended C3 at the claim's own example
`<ruleset><rule name="Root Rule"/></ruleset>`: zero rule nodes, no error. -/
theorem rule_nodes_iff_named_non_root_witness :
    ∃ res, parseRuleFilters
        (.doc (.elem "ruleset" [] [.elem "rule" [("name", "Root Rule")] []])) = some res ∧
      countType "rule" res.nodes =
        (selectRules (.elem "ruleset" [] [.elem "rule" [("name", "Root Rule")] []])).length ∧
      ∀ e ∈ docElements (.elem "ruleset" [] [.elem "rule" [("name", "Root Rule")] []]),
        (isSelectedRule e = true ↔
          e.tag = "rule" ∧ ∃ v, getAttribute e "name" = some v ∧ v ≠ "Root Rule") :=
  rule_nodes_iff_named_non_root (.elem "ruleset" [] [.elem "rule" [("name", "Root Rule")] []])
    (by decide)

/-- **C8 (counterexample).** The claim says a rule with no `matchFilter`
*child* yields a childless rule node; but `rule.querySelector('matchFilter')`
searches all descendants, so a `matchFilter` wrapped one level deeper still
produces a filterGroup node and an outgoing edge. -/
theorem rule_no_matchfilter_child_cex :
    ((XmlNode.elem "rule" [("name", "r")] [.elem "wrap" [] [.elem "matchFilter" [] []]]).children.all
        (fun c => c.tag != "matchFilter")) = true ∧
      (parseRuleFilters (.doc (.elem "ruleset" []
          [.elem "rule" [("name", "r")] [.elem "wrap" [] [.elem "matchFilter" [] []]]]))).map
        (fun res => (countType "filterGroup" res.nodes, res.edges.length)) = some (1, 1) := by
  exact ⟨rfl, rfl⟩

/-- **C8 (amended).** Absent triggers are valid: a document with a
`<ruleset>` and no `<trigger>` elements parses successfully with zero
trigger nodes.  A rule with no `matchFilter` *descendant* yields a
childless rule node: with a single selected rule and no `matchFilter`
descendant the result has one rule node, no filterGroup node and no edges
at all, still without error. -/
theorem parse_edge_cases :
    (∀ root, (docElements root).any (fun e => e.tag == "ruleset") = true →
      selectTriggers root = [] →
      ∃ res, parseRuleFilters (.doc root) = some res ∧
        countType "trigger" res.nodes = 0) ∧
    (∀ root r, (docElements root).any (fun e => e.tag == "ruleset") = true →
      selectRules root = [r] →
      (descendants r).find? (fun e => e.tag == "matchFilter") = none →
      ∃ res, parseRuleFilters (.doc root) = some res ∧
        countType "rule" res.nodes = 1 ∧ countType "filterGroup" res.nodes = 0 ∧
        res.edges = []) := by
  constructor
  · intro root hrs htrig
    refine ⟨_, parseRuleFilters_doc_eq root hrs, ?_⟩
    rw [countType_trigger_runRules, runTriggers_eq, htrig]
    simp [countType, triggerNodesFrom]
  · intro root r hrs hsel hmf
    refine ⟨_, parseRuleFilters_doc_eq root hrs, ?_, ?_, ?_⟩
    · rw [hsel, runRules_singleton, countType_rule_runRule, runTriggers_eq]
      simp [countType]
      intro a ha
      simp [triggerNodesFrom_type _ _ _ _ ha]
    · rw [hsel, runRules_singleton, runRule_eq_no_mf hmf, runTriggers_eq]
      simp only [countType_append]
      simp [countType, mkRuleNode]
      intro a ha
      simp [triggerNodesFrom_type _ _ _ _ ha]
    · rw [hsel, runRules_singleton, runRule_eq_no_mf hmf, runTriggers_eq]

/-- Witness for the amended C8 at
`<ruleset><rule name="R"/></ruleset>` (no triggers, no matchFilter). -/
theorem parse_edge_cases_witness :
    (∃ res, parseRuleFilters (.doc (.elem "ruleset" [] [.elem "rule" [("name", "R")] []])) =
        some res ∧ countType "trigger" res.nodes = 0) ∧
    (∃ res, parseRuleFilters (.doc (.elem "ruleset" [] [.elem "rule" [("name", "R")] []])) =
        some res ∧ countType "rule" res.nodes = 1 ∧ countType "filterGroup" res.nodes = 0 ∧
        res.edges = []) :=
  ⟨parse_edge_cases.1 (.elem "ruleset" [] [.elem "rule" [("name", "R")] []]) (by decide) rfl,
   parse_edge_cases.2 (.elem "ruleset" [] [.elem "rule" [("name", "R")] []])
     (.elem "rule" [("name", "R")] []) (by decide) rfl rfl⟩

/-- **C2 (counterexample).** The claim requires a `ParseError` when the
`<ruleset>` is not the document *root*; but the code only checks
`querySelector('ruleset')`, which also finds nested `<ruleset>` elements,
so `<frame><ruleset/></frame>` (root `frame`) parses successfully.
Moreover the error result for malformed and for empty input alike is the
bare `null`, which carries no diagnostic context. -/
theorem parse_root_requirement_cex :
    (XmlNode.elem "frame" [] [.elem "ruleset" [] []]).tag ≠ "ruleset" ∧
      parseRuleFilters (.doc (.elem "frame" [] [.elem "ruleset" [] []])) =
        some { nodes := [], edges := [] } ∧
      parseRuleFilters .malformed = none ∧
      parseRuleFilters .empty = none := by
  exact ⟨by decide, rfl, rfl, rfl⟩

/-- **C2 (amended).** `parseRuleFilters` returns `null` (`none`) exactly
for empty input, malformed XML, and well-formed documents containing no
`<ruleset>` element anywhere (not only as root); a well-formed document
with a `<ruleset>` element yields a `{nodes, edges}` result, and the
valid-but-empty result `{nodes: [], edges: []}` is distinct from the
`null` error. -/
theorem parse_error_conditions :
    (∀ input, parseRuleFilters input = none ↔
        (input = .empty ∨ input = .malformed ∨
          ∃ root, input = .doc root ∧
            (docElements root).any (fun e => e.tag == "ruleset") = false)) ∧
      parseRuleFilters (.doc (.elem "ruleset" [] [])) = some { nodes := [], edges := [] } ∧
      (none : Option ParseResult) ≠ some { nodes := [], edges := [] } := by
  refine ⟨?_, rfl, by simp⟩
  intro input
  cases input with
  | empty => simp [parseRuleFilters]
  | malformed => simp [parseRuleFilters]
  | doc root =>
      cases hrs : (docElements root).any (fun e => e.tag == "ruleset") with
      | false =>
          have hval : parseRuleFilters (.doc root) = none := by
            simp [parseRuleFilters, hrs]
          simp only [hval, true_iff]
          exact Or.inr (Or.inr ⟨root, rfl, hrs⟩)
      | true =>
          constructor
          · intro hc
            rw [parseRuleFilters_doc_eq root hrs] at hc
            exact Option.noConfusion hc
          · rintro (h | h | ⟨root', heq, hfalse⟩)
            · exact XmlInput.noConfusion h
            · exact XmlInput.noConfusion h
            · cases heq
              rw [hrs] at hfalse
              exact Bool.noConfusion hfalse

/-- Witness for the amended C2: the error cases evaluated at concrete
inputs through the theorem. -/
theorem parse_error_conditions_witness :
    parseRuleFilters .malformed = none ∧
      parseRuleFilters (.doc (.elem "notes" [] [])) = none :=
  ⟨(parse_error_conditions.1 .malformed).mpr (Or.inr (Or.inl rfl)),
   (parse_error_conditions.1 (.doc (.elem "notes" [] []))).mpr
     (Or.inr (Or.inr ⟨.elem "notes" [] [], rfl, by decide⟩))⟩

/-- **C4.** `parseRuleFilters` is deterministic: identical inputs yield
identical results, including identical `(x, y)` positions on every node;
the embedding is a pure function of the input with no randomness or
timestamp source. -/
theorem parse_deterministic (i₁ i₂ : XmlInput) (h : i₁ = i₂) :
    parseRuleFilters i₁ = parseRuleFilters i₂ ∧
      ((parseRuleFilters i₁).map (fun res => res.nodes.map (fun n => (n.posX, n.posY)))) =
        ((parseRuleFilters i₂).map (fun res => res.nodes.map (fun n => (n.posX, n.posY)))) := by
  subst h
  exact ⟨rfl, rfl⟩

/-- Witness for C4 at a concrete document. -/
theorem parse_deterministic_witness :
    parseRuleFilters (.doc (.elem "ruleset" [] [.elem "trigger" [("name", "T")] []])) =
        parseRuleFilters (.doc (.elem "ruleset" [] [.elem "trigger" [("name", "T")] []])) ∧
      ((parseRuleFilters (.doc (.elem "ruleset" [] [.elem "trigger" [("name", "T")] []]))).map
          (fun res => res.nodes.map (fun n => (n.posX, n.posY)))) =
        ((parseRuleFilters (.doc (.elem "ruleset" [] [.elem "trigger" [("name", "T")] []]))).map
          (fun res => res.nodes.map (fun n => (n.posX, n.posY)))) :=
  parse_deterministic _ _ rfl

/-- **C5.** `safeRatio` returns 0 when the total is 0 (never `NaN`, never
an error), and for `0 ≤ part ≤ total` the percentage lies in `[0, 100]`. -/
theorem safeRatio_spec :
    (∀ part : ℚ, safeRatio part 0 = 0) ∧
      ∀ part total : ℚ, 0 ≤ part → part ≤ total →
        0 ≤ safeRatio part total ∧ safeRatio part total ≤ 100 := by
  constructor
  · intro p
    simp [safeRatio]
  · intro p t hp hpt
    by_cases ht : t ≤ 0
    · simp [safeRatio, ht]
    · push_neg at ht
      rw [safeRatio, if_neg (not_le.mpr ht)]
      constructor
      · exact mul_nonneg (div_nonneg hp ht.le) (by norm_num)
      · have h1 : p / t ≤ 1 := (div_le_one ht).mpr hpt
        calc p / t * 100 ≤ 1 * 100 := by
              exact mul_le_mul_of_nonneg_right h1 (by norm_num)
          _ = 100 := by norm_num

/-- Witness for C5 at `part = 1`, `total = 4`. -/
theorem safeRatio_spec_witness :
    safeRatio 1 0 = 0 ∧ 0 ≤ safeRatio 1 4 ∧ safeRatio 1 4 ≤ 100 :=
  ⟨safeRatio_spec.1 1, safeRatio_spec.2 1 4 (by norm_num) (by norm_num)⟩

/-! ### The single-selected-rule characterization -/

theorem triggerNodesFrom_id : ∀ (ts : List XmlNode) (i k : Nat) (n : Node),
    n ∈ triggerNodesFrom i k ts → ∃ m : Nat, n.id = "trigger_" ++ toString m := by
  intro ts
  induction ts with
  | nil => intro i k n h; simp [triggerNodesFrom] at h
  | cons t ts ih =>
      intro i k n h
      simp only [triggerNodesFrom, List.mem_cons] at h
      rcases h with h | h
      · exact ⟨k, by rw [h]; rfl⟩
      · exact ih (i + 1) (k + 1) n h

theorem componentNodesFrom_id : ∀ (cs : List XmlNode) (ri fi k : Nat) (n : Node),
    n ∈ componentNodesFrom ri fi k cs → ∃ m : Nat, n.id = "component_" ++ toString m := by
  intro cs
  induction cs with
  | nil => intro ri fi k n h; simp [componentNodesFrom] at h
  | cons c cs ih =>
      intro ri fi k n h
      simp only [componentNodesFrom, List.mem_cons] at h
      rcases h with h | h
      · exact ⟨k, by rw [h]; rfl⟩
      · exact ih ri (fi + 1) (k + 1) n h

theorem componentNodesFrom_get : ∀ (cs : List XmlNode) (ri fi k j : Nat) (hj : j < cs.length),
    mkComponentNode ri (fi + j) (k + j) (cs.get ⟨j, hj⟩) ∈ componentNodesFrom ri fi k cs := by
  intro cs
  induction cs with
  | nil => intro ri fi k j hj; exact absurd hj (Nat.not_lt_zero j)
  | cons c cs ih =>
      intro ri fi k j hj
      cases j with
      | zero => simp [componentNodesFrom]
      | succ j' =>
          have h' : j' < cs.length := by simpa using hj
          have := ih ri (fi + 1) (k + 1) j' h'
          have e1 : fi + 1 + j' = fi + (j' + 1) := by omega
          have e2 : k + 1 + j' = k + (j' + 1) := by omega
          rw [e1, e2] at this
          simp only [componentNodesFrom, List.mem_cons]
          right
          simpa using this

theorem componentEdgesFrom_length : ∀ (cs : List XmlNode) (fg : String) (k : Nat),
    (componentEdgesFrom fg k cs).length = cs.length := by
  intro cs
  induction cs with
  | nil => intro fg k; rfl
  | cons c cs ih => intro fg k; simp [componentEdgesFrom, ih]

theorem filter_componentEdgesFrom {p : Edge → Bool} :
    ∀ (cs : List XmlNode) (fg : String) (k : Nat),
      (∀ j, j < cs.length → p (componentEdge fg (k + j)) = true) →
      (componentEdgesFrom fg k cs).filter p = componentEdgesFrom fg k cs := by
  intro cs
  induction cs with
  | nil => intro fg k _; rfl
  | cons c cs ih =>
      intro fg k h
      have h0 : p (componentEdge fg k) = true := by
        have := h 0 (by simp)
        simpa using this
      simp only [componentEdgesFrom, List.filter_cons, h0, if_true]
      rw [ih fg (k + 1)]
      intro j hj
      have := h (j + 1) (by simpa using Nat.succ_lt_succ hj)
      have e1 : k + (j + 1) = k + 1 + j := by omega
      rwa [e1] at this

theorem find?_append_right_none {α : Type} {p : α → Bool} {A B : List α}
    (h : ∀ b ∈ B, p b = false) : (A ++ B).find? p = A.find? p := by
  rw [List.find?_append]
  cases hA : A.find? p with
  | some a => rfl
  | none =>
      have hB : B.find? p = none := by
        rw [List.find?_eq_none]
        intro x hx
        simp [h x hx]
      simp [hB]

/-- When exactly one rule is selected and it has a `matchFilter`
descendant, the whole parse result in closed form. -/
theorem parse_single_rule (root r mf : XmlNode) (ts cs : List XmlNode)
    (hrs : (docElements root).any (fun e => e.tag == "ruleset") = true)
    (hsel : selectRules root = [r])
    (hts : selectTriggers root = ts)
    (hmf : (descendants r).find? (fun e => e.tag == "matchFilter") = some mf)
    (hcs : (descendants mf).filter isSingleFilterComponent = cs) :
    parseRuleFilters (.doc root) =
      some { nodes := (triggerNodesFrom 0 0 ts ++ [mkRuleNode 0 ts.length r]
                ++ [mkFilterGroupNode 0 (ts.length + 1) mf]
                ++ componentNodesFrom 0 0 (ts.length + 2) cs)
             edges := ([ruleEdge ("rule_" ++ toString ts.length)
                  ("filter_" ++ toString (ts.length + 1))]
               ++ componentEdgesFrom ("filter_" ++ toString (ts.length + 1)) (ts.length + 2) cs
               ++ actionEdges ts.length r ("filter_" ++ toString (ts.length + 1))
                   (triggerNodesFrom 0 0 ts ++ [mkRuleNode 0 ts.length r]
                     ++ [mkFilterGroupNode 0 (ts.length + 1) mf]
                     ++ componentNodesFrom 0 0 (ts.length + 2) cs)) } := by
  rw [parseRuleFilters_doc_eq root hrs, hsel, runRules_singleton, runTriggers_eq,
    runRule_eq_mf hmf]
  simp only [hts, hcs]
  simp [ruleEdge, mkRuleNode, mkFilterGroupNode, List.append_assoc]

/-- Any action edge points from the filterGroup to a node found among the
accumulated nodes whose `data.type` is `"trigger"`. -/
theorem mem_actionEdges {T : Nat} {r : XmlNode} {fg : String} {allNodes : List Node} {e : Edge}
    (h : e ∈ actionEdges T r fg allNodes) :
    ∃ tn ∈ allNodes, tn.data.type = "trigger" ∧ e.target = tn.id ∧ e.source = fg := by
  cases hA : (descendants r).find? isTriggerAction with
  | none => simp [actionEdges, hA] at h
  | some a =>
      simp only [actionEdges, hA] at h
      by_cases hT : T > 0
      · simp only [hT, if_true] at h
        cases hF : allNodes.find?
            (fun n => jsIncludes n.data.label (jsStr (getAttribute a "trigger"))
              && n.data.type == "trigger") with
        | none => simp [hF] at h
        | some tn =>
            simp only [hF, List.mem_singleton] at h
            subst h
            have hq := List.find?_some hF
            have htype : tn.data.type = "trigger" := by
              have := (Bool.and_eq_true _ _).mp hq
              exact beq_iff_eq.mp this.2
            exact ⟨tn, List.mem_of_find?_eq_some hF, htype, rfl, rfl⟩
      · simp [hT] at h

/-- **C1.** For a document with a `<ruleset>` whose single selected rule
(name present and ≠ "Root Rule") has a `matchFilter` with `N`
`singleFilterComponent` descendants, `parseRuleFilters` returns exactly
`N` nodes of type `filterComponent` and exactly `N` edges from the
filterGroup node to those component nodes. -/
theorem component_count (root r mf : XmlNode) (ts cs : List XmlNode) (N : Nat)
    (hrs : (docElements root).any (fun e => e.tag == "ruleset") = true)
    (hsel : selectRules root = [r])
    (hts : selectTriggers root = ts)
    (hmf : (descendants r).find? (fun e => e.tag == "matchFilter") = some mf)
    (hcs : (descendants mf).filter isSingleFilterComponent = cs)
    (hN : cs.length = N) :
    ∃ res, parseRuleFilters (.doc root) = some res ∧
      countType "filterComponent" res.nodes = N ∧
      (res.edges.filter (fun e =>
        e.source == ("filter_" ++ toString (ts.length + 1)) &&
        res.nodes.any (fun n => n.id == e.target && n.data.type == "filterComponent"))).length
        = N := by
  refine ⟨_, parse_single_rule root r mf ts cs hrs hsel hts hmf hcs, ?_, ?_⟩
  · rw [countType_append, countType_append, countType_append,
      countType_triggerNodesFrom, countType_componentNodesFrom]
    simp [countType, mkRuleNode, mkFilterGroupNode, hN]
  · rw [List.filter_append, List.filter_append, List.length_append, List.length_append]
    have hre : ((ruleEdge ("rule_" ++ toString ts.length)
          ("filter_" ++ toString (ts.length + 1))).source ==
        ("filter_" ++ toString (ts.length + 1))) = false := by
      rw [beq_eq_false_iff_ne]
      exact stems_append_ne rfl rfl (by decide)
    have h1 : (List.filter (fun e =>
        e.source == ("filter_" ++ toString (ts.length + 1)) &&
        (triggerNodesFrom 0 0 ts ++ [mkRuleNode 0 ts.length r]
            ++ [mkFilterGroupNode 0 (ts.length + 1) mf]
            ++ componentNodesFrom 0 0 (ts.length + 2) cs).any
          (fun n => n.id == e.target && n.data.type == "filterComponent"))
        [ruleEdge ("rule_" ++ toString ts.length)
          ("filter_" ++ toString (ts.length + 1))]).length = 0 := by
      simp [List.filter_cons, hre]
    have h2 : (List.filter (fun e =>
        e.source == ("filter_" ++ toString (ts.length + 1)) &&
        (triggerNodesFrom 0 0 ts ++ [mkRuleNode 0 ts.length r]
            ++ [mkFilterGroupNode 0 (ts.length + 1) mf]
            ++ componentNodesFrom 0 0 (ts.length + 2) cs).any
          (fun n => n.id == e.target && n.data.type == "filterComponent"))
        (componentEdgesFrom ("filter_" ++ toString (ts.length + 1)) (ts.length + 2) cs)).length
        = cs.length := by
      rw [filter_componentEdgesFrom, componentEdgesFrom_length]
      intro j hj
      have hmem : mkComponentNode 0 (0 + j) ((ts.length + 2) + j) (cs.get ⟨j, hj⟩) ∈
          (triggerNodesFrom 0 0 ts ++ [mkRuleNode 0 ts.length r]
            ++ [mkFilterGroupNode 0 (ts.length + 1) mf]
            ++ componentNodesFrom 0 0 (ts.length + 2) cs) :=
        List.mem_append_right _ (componentNodesFrom_get cs 0 0 (ts.length + 2) j hj)
      simp only [componentEdge, Bool.and_eq_true, beq_self_eq_true, true_and,
        List.any_eq_true]
      exact ⟨_, hmem, by simp [mkComponentNode]⟩
    have h3 : (List.filter (fun e =>
        e.source == ("filter_" ++ toString (ts.length + 1)) &&
        (triggerNodesFrom 0 0 ts ++ [mkRuleNode 0 ts.length r]
            ++ [mkFilterGroupNode 0 (ts.length + 1) mf]
            ++ componentNodesFrom 0 0 (ts.length + 2) cs).any
          (fun n => n.id == e.target && n.data.type == "filterComponent"))
        (actionEdges ts.length r ("filter_" ++ toString (ts.length + 1))
          (triggerNodesFrom 0 0 ts ++ [mkRuleNode 0 ts.length r]
            ++ [mkFilterGroupNode 0 (ts.length + 1) mf]
            ++ componentNodesFrom 0 0 (ts.length + 2) cs))) = [] := by
      rw [List.filter_eq_nil_iff]
      intro e he
      obtain ⟨tn, htn, htype, htarget, -⟩ := mem_actionEdges he
      have htn' : tn ∈ triggerNodesFrom 0 0 ts := by
        rcases List.mem_append.1 htn with h' | h'
        · rcases List.mem_append.1 h' with h'' | h''
          · rcases List.mem_append.1 h'' with hmem3 | hmem3
            · exact hmem3
            · exfalso
              have heqn : tn = mkRuleNode 0 ts.length r := by simpa using hmem3
              rw [heqn] at htype
              exact absurd htype (by simp [mkRuleNode])
          · exfalso
            have heqn : tn = mkFilterGroupNode 0 (ts.length + 1) mf := by simpa using h''
            rw [heqn] at htype
            exact absurd htype (by simp [mkFilterGroupNode])
        · exfalso
          have heqn := componentNodesFrom_type _ _ _ _ _ h'
          rw [heqn] at htype
          exact absurd htype (by simp)
      obtain ⟨m, hm⟩ := triggerNodesFrom_id ts 0 0 tn htn'
      intro hP
      obtain ⟨-, hany⟩ := (Bool.and_eq_true _ _).mp hP
      rw [List.any_eq_true] at hany
      obtain ⟨n, hn, hp⟩ := hany
      simp only [Bool.and_eq_true, beq_iff_eq] at hp
      obtain ⟨hpid, hptype⟩ := hp
      rcases List.mem_append.1 hn with h' | h'
      · rcases List.mem_append.1 h' with h'' | h''
        · rcases List.mem_append.1 h'' with h4 | h4
          · have heqn := triggerNodesFrom_type _ _ _ _ h4
            rw [heqn] at hptype
            exact absurd hptype (by simp)
          · have heqn : n = mkRuleNode 0 ts.length r := by simpa using h4
            rw [heqn] at hptype
            exact absurd hptype (by simp [mkRuleNode])
        · have heqn : n = mkFilterGroupNode 0 (ts.length + 1) mf := by simpa using h''
          rw [heqn] at hptype
          exact absurd hptype (by simp [mkFilterGroupNode])
      · obtain ⟨m', hm'⟩ := componentNodesFrom_id cs 0 0 (ts.length + 2) n h'
        rw [hm', htarget, hm] at hpid
        exact absurd hpid (stems_append_ne rfl rfl (by decide))
    rw [h1, h2, h3, hN]
    simp

/-- Witness for C1: two `singleFilterComponent`s yield two component
nodes and two filterGroup→component edges. -/
theorem component_count_witness :
    ∃ res, parseRuleFilters (.doc (.elem "ruleset" [] [.elem "rule" [("name", "R1")]
        [.elem "matchFilter" [("type", "and")]
          [.elem "singleFilterComponent" [("type", "EventID")] [],
           .elem "singleFilterComponent" [("type", "Source")] []]]])) = some res ∧
      countType "filterComponent" res.nodes = 2 ∧
      (res.edges.filter (fun e =>
        e.source == ("filter_" ++ toString (([] : List XmlNode).length + 1)) &&
        res.nodes.any (fun n => n.id == e.target && n.data.type == "filterComponent"))).length
        = 2 :=
  component_count
    (.elem "ruleset" [] [.elem "rule" [("name", "R1")]
      [.elem "matchFilter" [("type", "and")]
        [.elem "singleFilterComponent" [("type", "EventID")] [],
         .elem "singleFilterComponent" [("type", "Source")] []]]])
    (.elem "rule" [("name", "R1")]
      [.elem "matchFilter" [("type", "and")]
        [.elem "singleFilterComponent" [("type", "EventID")] [],
         .elem "singleFilterComponent" [("type", "Source")] []]])
    (.elem "matchFilter" [("type", "and")]
      [.elem "singleFilterComponent" [("type", "EventID")] [],
       .elem "singleFilterComponent" [("type", "Source")] []])
    []
    [.elem "singleFilterComponent" [("type", "EventID")] [],
     .elem "singleFilterComponent" [("type", "Source")] []]
    2 (by decide) rfl rfl rfl rfl rfl

/-- **C7.** Every filterComponent node stores the component's full,
untruncated value in `details`; the display label applies the
20-character truncation, so for long values the stored value still equals
the attribute lookup exactly. -/
theorem component_full_value (root r mf c : XmlNode) (ts cs : List XmlNode) (j : Nat)
    (hrs : (docElements root).any (fun e => e.tag == "ruleset") = true)
    (hsel : selectRules root = [r])
    (hts : selectTriggers root = ts)
    (hmf : (descendants r).find? (fun e => e.tag == "matchFilter") = some mf)
    (hcs : (descendants mf).filter isSingleFilterComponent = cs)
    (hj : cs.get? j = some c) :
    ∃ res, parseRuleFilters (.doc root) = some res ∧
      ∃ n ∈ res.nodes, n.data.type = "filterComponent" ∧
        n.data.details = some { filterType := getAttribute c "type",
                                operator := componentOperator c,
                                value := componentValue c } ∧
        (20 < (componentValue c).length →
          n.data.label = jsStr (getAttribute c "type") ++ "\n" ++ componentOperator c ++ "\n"
            ++ ((componentValue c).take 20 ++ "...")) := by
  obtain ⟨hjlt, hget⟩ := List.get?_eq_some.mp hj
  refine ⟨_, parse_single_rule root r mf ts cs hrs hsel hts hmf hcs, ?_⟩
  refine ⟨mkComponentNode 0 (0 + j) ((ts.length + 2) + j) c, ?_, rfl, rfl, ?_⟩
  · have hmem := componentNodesFrom_get cs 0 0 (ts.length + 2) j hjlt
    rw [hget] at hmem
    exact List.mem_append_right _ hmem
  · intro h20
    simp [mkComponentNode, displayValue, h20]

/-- Witness for C7 with a 25-character value: stored in full, label
truncated to 20 characters plus an ellipsis. -/
theorem component_full_value_witness :
    ∃ res, parseRuleFilters (.doc longValueDoc) = some res ∧
      ∃ n ∈ res.nodes, n.data.type = "filterComponent" ∧
        n.data.details = some { filterType := getAttribute longValueComponent "type"
                                operator := componentOperator longValueComponent
                                value := componentValue longValueComponent } ∧
        (20 < (componentValue longValueComponent).length →
          n.data.label = jsStr (getAttribute longValueComponent "type") ++ "\n"
            ++ componentOperator longValueComponent ++ "\n"
            ++ ((componentValue longValueComponent).take 20 ++ "...")) :=
  component_full_value longValueDoc longValueRule longValueMatchFilter longValueComponent
    [] [longValueComponent] 0 (by decide) rfl rfl rfl rfl rfl

/-- The trigger-node lookup finds the node of the first position whose
label satisfies the predicate. -/
theorem find?_triggerNodesFrom_minimal (tstr : String) :
    ∀ (ts : List XmlNode) (i k j : Nat) (hj : j < ts.length),
      (∀ i' (h : i' < j), jsIncludes (triggerLabel (i + i') (ts.get ⟨i', by omega⟩)) tstr = false) →
      jsIncludes (triggerLabel (i + j) (ts.get ⟨j, hj⟩)) tstr = true →
      (triggerNodesFrom i k ts).find?
          (fun n => jsIncludes n.data.label tstr && n.data.type == "trigger") =
        some (mkTriggerNode (i + j) (k + j) (ts.get ⟨j, hj⟩)) := by
  intro ts
  induction ts with
  | nil => intro i k j hj _ _; exact absurd hj (Nat.not_lt_zero j)
  | cons t ts ih =>
      intro i k j hj hmin hhit
      cases j with
      | zero =>
          have hh : jsIncludes (triggerLabel i t) tstr = true := by simpa using hhit
          rw [triggerNodesFrom, List.find?_cons_of_pos _ (by simp [mkTriggerNode, hh])]
          simp
      | succ j' =>
          have hj' : j' < ts.length := by simpa using hj
          have hhead : jsIncludes (triggerLabel i t) tstr = false := by
            have h0 := hmin 0 (Nat.succ_pos j')
            simpa using h0
          rw [triggerNodesFrom, List.find?_cons_of_neg _ (by simp [mkTriggerNode, hhead])]
          have hmin' : ∀ i' (h : i' < j'),
              jsIncludes (triggerLabel ((i + 1) + i') (ts.get ⟨i', by omega⟩)) tstr = false := by
            intro i' h
            have hx := hmin (i' + 1) (Nat.succ_lt_succ h)
            have e1 : i + (i' + 1) = (i + 1) + i' := by omega
            rw [e1] at hx
            simpa using hx
          have hhit' : jsIncludes (triggerLabel ((i + 1) + j') (ts.get ⟨j', hj'⟩)) tstr = true := by
            have hx := hhit
            have e1 : i + (j' + 1) = (i + 1) + j' := by omega
            rw [e1] at hx
            simpa using hx
          have hres := ih (i + 1) (k + 1) j' hj' hmin' hhit'
          rw [hres]
          have e1 : (i + 1) + j' = i + (j' + 1) := by omega
          have e2 : (k + 1) + j' = k + (j' + 1) := by omega
          rw [e1, e2]
          simp

/-- **C6 (amended).** When the single selected rule has a `matchFilter`
and an `action[type="TRIGGER"]` whose `trigger` attribute is `t`, and the
trigger node at position `j` is the *first* whose label contains `t` as a
substring, `parseRuleFilters` adds the filterGroup→trigger edge to that
node — which is the trigger actually named `t` only when no earlier
trigger's label contains `t`. -/
theorem action_trigger_first_label_match (root r mf a : XmlNode) (t : String)
    (ts cs : List XmlNode) (j : Nat)
    (hrs : (docElements root).any (fun e => e.tag == "ruleset") = true)
    (hsel : selectRules root = [r])
    (hts : selectTriggers root = ts)
    (hmf : (descendants r).find? (fun e => e.tag == "matchFilter") = some mf)
    (hcs : (descendants mf).filter isSingleFilterComponent = cs)
    (ha : (descendants r).find? isTriggerAction = some a)
    (ht : getAttribute a "trigger" = some t)
    (hj : j < ts.length)
    (hhit : jsIncludes (triggerLabel j (ts.get ⟨j, hj⟩)) t = true)
    (hmin : ∀ i (h : i < j), jsIncludes (triggerLabel i (ts.get ⟨i, by omega⟩)) t = false) :
    ∃ res, parseRuleFilters (.doc root) = some res ∧
      { id := ("edge_" ++ ("filter_" ++ toString (ts.length + 1)) ++ "_"
            ++ ("trigger_" ++ toString j))
        source := "filter_" ++ toString (ts.length + 1)
        target := "trigger_" ++ toString j
        animated := true } ∈ res.edges := by
  refine ⟨_, parse_single_rule root r mf ts cs hrs hsel hts hmf hcs, ?_⟩
  have htstr : jsStr (getAttribute a "trigger") = t := by rw [ht]; rfl
  have hT : ts.length > 0 := by omega
  have hmin0 : ∀ i' (h : i' < j),
      jsIncludes (triggerLabel (0 + i') (ts.get ⟨i', by omega⟩)) t = false := by
    intro i' h
    simpa using hmin i' h
  have hhit0 : jsIncludes (triggerLabel (0 + j) (ts.get ⟨j, hj⟩)) t = true := by
    simpa using hhit
  have hfind := find?_triggerNodesFrom_minimal t ts 0 0 j hj hmin0 hhit0
  have hstep1 : ((triggerNodesFrom 0 0 ts ++ [mkRuleNode 0 ts.length r]
        ++ [mkFilterGroupNode 0 (ts.length + 1) mf]
        ++ componentNodesFrom 0 0 (ts.length + 2) cs).find?
      (fun n => jsIncludes n.data.label (jsStr (getAttribute a "trigger"))
        && n.data.type == "trigger")) =
      some (mkTriggerNode (0 + j) (0 + j) (ts.get ⟨j, hj⟩)) := by
    rw [find?_append_right_none, find?_append_right_none, find?_append_right_none, htstr]
    · exact hfind
    · intro b hb
      have hbe : b = mkRuleNode 0 ts.length r := by simpa using hb
      rw [hbe]
      simp [mkRuleNode]
    · intro b hb
      have hbe : b = mkFilterGroupNode 0 (ts.length + 1) mf := by simpa using hb
      rw [hbe]
      simp [mkFilterGroupNode]
    · intro b hb
      have hbt := componentNodesFrom_type _ _ _ _ _ hb
      simp [hbt]
  have hae : actionEdges ts.length r ("filter_" ++ toString (ts.length + 1))
      (triggerNodesFrom 0 0 ts ++ [mkRuleNode 0 ts.length r]
        ++ [mkFilterGroupNode 0 (ts.length + 1) mf]
        ++ componentNodesFrom 0 0 (ts.length + 2) cs) =
      [{ id := ("edge_" ++ ("filter_" ++ toString (ts.length + 1)) ++ "_"
            ++ ("trigger_" ++ toString j))
         source := "filter_" ++ toString (ts.length + 1)
         target := "trigger_" ++ toString j
         animated := true }] := by
    simp only [actionEdges, ha]
    rw [if_pos hT, hstep1]
    simp [mkTriggerNode]
  rw [hae]
  exact List.mem_append_right _ (List.mem_singleton.mpr rfl)

/-- **C6 (counterexample).** The code resolves the action's trigger
reference by *label substring containment*, not by name equality: with
triggers named `"foobar"` then `"foo"` and an action referencing `"foo"`,
a trigger node named `"foo"` exists (`trigger_1`), yet the edge goes to
`trigger_0` (the `"foobar"` node, whose label contains `"foo"`), and no
edge points to `trigger_1`. -/
theorem action_trigger_edge_cex :
    (parseRuleFilters (.doc shadowDoc)).map
        (fun res => res.edges.map (fun e => (e.source, e.target)))
        = some [("rule_2", "filter_3"), ("filter_3", "trigger_0")] ∧
      (parseRuleFilters (.doc shadowDoc)).map
        (fun res => res.nodes.map (fun n => (n.id, n.data.label)))
        = some [("trigger_0", "foobar\nCount: 1, Timeout: 60s"),
                ("trigger_1", "foo\nCount: 1, Timeout: 60s"),
                ("rule_2", "r1"),
                ("filter_3", "AND Filter")] ∧
      getAttribute (.elem "action" [("type", "TRIGGER"), ("trigger", "foo")] []) "trigger"
        = some "foo" := by
  refine ⟨by decide, by decide, rfl⟩

/-- Witness for the amended C6: a single trigger `"T1"`, exactly
referenced — the edge goes to its node `trigger_0`. -/
theorem action_trigger_first_label_match_witness :
    ∃ res, parseRuleFilters (.doc okTriggerDoc) = some res ∧
      { id := ("edge_" ++ ("filter_" ++ toString (1 + 1)) ++ "_"
            ++ ("trigger_" ++ toString 0))
        source := "filter_" ++ toString (1 + 1)
        target := "trigger_" ++ toString 0
        animated := true } ∈ res.edges :=
  action_trigger_first_label_match okTriggerDoc okTriggerRule
    (.elem "matchFilter" [] []) (.elem "action" [("type", "TRIGGER"), ("trigger", "T1")] [])
    "T1" [.elem "trigger" [("name", "T1")] []] [] 0
    (by decide) rfl rfl rfl rfl rfl rfl (by decide) (by decide)
    (fun i h => absurd h (Nat.not_lt_zero i))

/-- **C10.** `getSeverityMeta` clamps every input to `[0, 100]`, maps a
non-parsable input to `0`, and its label partitions the clamped range:
`Critical` iff the value is ≥ 80, `High` iff it is in `[60, 80)`,
`Medium` iff in `[40, 60)`, and `Low` iff below 40. -/
theorem severity_meta_spec (input : String) :
    0 ≤ (getSeverityMeta input).value ∧ (getSeverityMeta input).value ≤ 100 ∧
      (getSeverityMeta input).value = clampSeverity input ∧
      (parseIntDec input = none → (getSeverityMeta input).value = 0) ∧
      ((getSeverityMeta input).label = "Critical" ↔ 80 ≤ (getSeverityMeta input).value) ∧
      ((getSeverityMeta input).label = "High" ↔
        60 ≤ (getSeverityMeta input).value ∧ (getSeverityMeta input).value < 80) ∧
      ((getSeverityMeta input).label = "Medium" ↔
        40 ≤ (getSeverityMeta input).value ∧ (getSeverityMeta input).value < 60) ∧
      ((getSeverityMeta input).label = "Low" ↔ (getSeverityMeta input).value < 40) := by
  have hcl : 0 ≤ clampSeverity input ∧ clampSeverity input ≤ 100 := by
    unfold clampSeverity
    cases parseIntDec input with
    | none => simp
    | some n =>
        constructor
        · exact le_min (by norm_num) (le_max_left 0 n)
        · exact min_le_left 100 _
  have h0 : parseIntDec input = none → clampSeverity input = 0 := by
    intro h
    simp [clampSeverity, h]
  simp only [getSeverityMeta]
  split_ifs with h80 h60 h40 <;>
    refine ⟨hcl.1, hcl.2, rfl, h0, ?_, ?_, ?_, ?_⟩ <;>
    simp only [] <;>
    constructor <;>
    intro hx <;>
    first
      | omega
      | (exfalso; revert hx; decide)
      | rfl
      | trivial

/-- Witness for C10: a non-numeric string clamps to 0, and an
out-of-range numeric string clamps into the Critical band. -/
theorem severity_meta_spec_witness :
    (getSeverityMeta "notanumber").value = 0 ∧ (getSeverityMeta "150").label = "Critical" :=
  ⟨(severity_meta_spec "notanumber").2.2.2.1 rfl,
   ((severity_meta_spec "150").2.2.2.2.1).mpr (by decide)⟩

end RACC
